import Mathlib

/-!
Verification of the route-segmentation and stop-selection engine of the
Fuel-Route-planner API (`routeapi/utils.py`).

The planner code is embedded shallowly over exact rationals: coordinates,
distances, prices and fuel quantities are `ℚ`, and Python's `round(x, n)`
is modelled exactly as round-half-to-even on rationals (`pyRound`).  The
geodesic primitive `haversine_m` involves real trigonometry, so the planner
definitions are parameterised by the distance function `hav` (with the same
argument order `lat1 lon1 lat2 lon2` as the source); the real haversine
formula itself is embedded separately over `ℝ` at the end of the file.
Python indexing that can raise (`stations_sorted[0]` on an empty list) is
modelled with `Option`: `none` is the raised-exception outcome.
-/

namespace FuelRoute

/-- A normalized station record `{name, lat, lon, price}` as produced by
`load_stations`. -/
structure Station where
  name : String
  lat : ℚ
  lon : ℚ
  price : ℚ
deriving DecidableEq, Repr

/-- One forced refueling event, as appended to `stops` in `compute_stops`.
`stop_coord` stores `(lat, lon)` like the source dict. -/
structure Stop where
  station : Station
  stop_coord : ℚ × ℚ
  distance_from_start_m : ℚ
  gallons : ℚ
  cost : ℚ
deriving DecidableEq, Repr

/-- The result dict returned by `compute_stops`. -/
structure PlanResult where
  total_distance_m : ℚ
  total_distance_miles : ℚ
  total_gallons : ℚ
  stops : List Stop
  estimated_cost : ℚ
deriving DecidableEq, Repr

/-- Round-half-to-even to an integer, the semantics of Python's `round`
applied to an exact rational. -/
def roundHalfEven (x : ℚ) : ℤ :=
  let f := ⌊x⌋
  let r := x - (f : ℚ)
  if r < 1/2 then f
  else if 1/2 < r then f + 1
  else if f % 2 = 0 then f else f + 1

/-- Python's `round(x, d)` for `d` decimal digits, modelled exactly on `ℚ`. -/
def pyRound (d : ℕ) (x : ℚ) : ℚ :=
  (roundHalfEven (x * 10 ^ d) : ℚ) / 10 ^ d

/-- `meters_to_miles` from the source: `m / 1609.344`. -/
def meters_to_miles (m : ℚ) : ℚ := m / 1609.344

/-- The lexicographic sort key used by `find_station_for_point` on its
`(distance, station)` candidate pairs: Python's tuple comparison of
`(station.price, distance)`. -/
def keyLe (a b : ℚ × Station) : Bool :=
  decide (a.2.price < b.2.price ∨ (a.2.price = b.2.price ∧ a.1 ≤ b.1))

/-- Stable insertion: place `x` before the first element `y` with `le x y`,
after every strictly smaller element. -/
def insertS {α : Type} (le : α → α → Bool) (x : α) : List α → List α
  | [] => [x]
  | y :: t => if le x y then x :: y :: t else y :: insertS le x t

/-- A stable sort, modelling Python's stable `list.sort` / `sorted`: the
output is ordered by `le` and elements with `le`-equivalent keys keep their
original relative order (the output a stable sort is extensionally
determined by these two properties, so this is the behaviour of the
source's Timsort). -/
def pySort {α : Type} (le : α → α → Bool) : List α → List α
  | [] => []
  | x :: t => insertS le x (pySort le t)

/-- `find_station_for_point` from the source, parameterised by the distance
function `hav`.  Builds the `(distance, station)` pairs with distance
≤ `radius_m`; if any exist, sorts them by `(price, distance)` and returns
the first; otherwise sorts all stations by distance and returns the first.
The Python `stations_sorted[0]` on an empty list raises: that outcome is
`none`. -/
def find_station_for_point (hav : ℚ → ℚ → ℚ → ℚ → ℚ) (lat lon : ℚ)
    (stations : List Station) (radius_m : ℚ) : Option Station :=
  let candidates :=
    (stations.map (fun s => (hav lat lon s.lat s.lon, s))).filter
      (fun ds => decide (ds.1 ≤ radius_m))
  if candidates.isEmpty then
    (pySort
      (fun a b => decide (hav lat lon a.lat a.lon ≤ hav lat lon b.lat b.lon))
      stations).head?
  else
    ((pySort keyLe candidates).head?).map Prod.snd

/-- Helper for `cumulative_distances`: given the running total `acc` and the
previous point `p`, emits the cumulative distance at each remaining point. -/
def cumAux (hav : ℚ → ℚ → ℚ → ℚ → ℚ) : ℚ → ℚ × ℚ → List (ℚ × ℚ) → List ℚ
  | _, _, [] => []
  | acc, p, q :: rest =>
    (acc + hav p.2 p.1 q.2 q.1) :: cumAux hav (acc + hav p.2 p.1 q.2 q.1) q rest

/-- `cumulative_distances` from the source: starts at `[0.0]` (also for an
empty coordinate list, exactly as `cum = [0.0]` before the loop) and adds
the pairwise distance for every consecutive pair.  Points are `(lon, lat)`
pairs, and the distance call is `hav lat1 lon1 lat2 lon2`. -/
def cumulative_distances (hav : ℚ → ℚ → ℚ → ℚ → ℚ) (coords : List (ℚ × ℚ)) :
    List ℚ :=
  match coords with
  | [] => [0]
  | p :: rest => 0 :: cumAux hav 0 p rest

/-- The stop-vertex selection of `compute_stops`:
`idx = next((i for i, v in enumerate(cum) if v >= target_m), len(cum)-1)` —
the first index whose cumulative distance is at or beyond the target, with
the last index as the generator-exhausted default. -/
def forcedIdx (cum : List ℚ) (target_m : ℚ) : ℕ :=
  if cum.findIdx (fun v => decide (target_m ≤ v)) = cum.length then cum.length - 1
  else cum.findIdx (fun v => decide (target_m ≤ v))

/-- `fill_distance_m = min(dist_from_idx_to_finish, max_range_m)` where
`dist_from_idx_to_finish = total_distance_m - cum[idx]`. -/
def fillDist (total_distance_m max_range_m cumIdx : ℚ) : ℚ :=
  min (total_distance_m - cumIdx) max_range_m

/-- The stop record appended by one iteration of the loop, given the
cumulative distance `cumIdx = cum[idx]` and the `(lon, lat)` vertex.
`gallons = (fill_distance_m / 1609.344) / mpg`; `cost = gallons *
station["price"]` (the unrounded gallons, as in the source). -/
def mkStop (total_distance_m max_range_m mpg : ℚ) (station : Station)
    (lonlat : ℚ × ℚ) (cumIdx : ℚ) : Stop :=
  { station := station
    stop_coord := (lonlat.2, lonlat.1)
    distance_from_start_m := pyRound 2 cumIdx
    gallons := pyRound 3 (fillDist total_distance_m max_range_m cumIdx / 1609.344 / mpg)
    cost := pyRound 2 (fillDist total_distance_m max_range_m cumIdx / 1609.344 / mpg
      * station.price) }

/-- The `while last_stop_dist_m + remaining_range < total_distance_m and
safe_counter < 50` loop of `compute_stops`.  `fuel` is `50 - safe_counter`;
`remaining_range` is reset to `max_range_m` on every iteration, so it is
passed as the constant `max_range_m`.  The locator is called with the
`(lon, lat)` unpacking of `coords_geojson[idx]`.  A `none` from the locator
(empty station list) aborts the whole computation, like the Python
`IndexError`. -/
def stopsLoop (hav : ℚ → ℚ → ℚ → ℚ → ℚ) (coords : List (ℚ × ℚ))
    (stations : List Station) (cum : List ℚ)
    (total_distance_m max_range_m mpg radius_m : ℚ) :
    Nat → ℚ → Option (List Stop)
  | 0, _ => some []
  | fuel + 1, last_stop_dist_m =>
    if last_stop_dist_m + max_range_m < total_distance_m then
      match find_station_for_point hav
          (coords.getD (forcedIdx cum (last_stop_dist_m + max_range_m)) (0, 0)).2
          (coords.getD (forcedIdx cum (last_stop_dist_m + max_range_m)) (0, 0)).1
          stations radius_m with
      | none => none
      | some station =>
        match stopsLoop hav coords stations cum total_distance_m max_range_m
            mpg radius_m fuel
            (cum.getD (forcedIdx cum (last_stop_dist_m + max_range_m)) 0) with
        | none => none
        | some rest =>
          some (mkStop total_distance_m max_range_m mpg station
            (coords.getD (forcedIdx cum (last_stop_dist_m + max_range_m)) (0, 0))
            (cum.getD (forcedIdx cum (last_stop_dist_m + max_range_m)) 0) :: rest)
    else some []

/-- `compute_stops` from the source.  The defaults in the source are
`max_range_m = 500 * 1609.344`, `mpg = 10.0`, `radius_m = 50000`; here all
parameters are explicit.  Returns `none` exactly when the Python function
raises (locator called on an empty station list). -/
def compute_stops (hav : ℚ → ℚ → ℚ → ℚ → ℚ) (coords_geojson : List (ℚ × ℚ))
    (stations : List Station) (max_range_m mpg radius_m : ℚ) :
    Option PlanResult :=
  if coords_geojson.length < 2 then
    some { total_distance_m := 0
           total_distance_miles := 0
           total_gallons := 0
           stops := []
           estimated_cost := 0 }
  else if (cumulative_distances hav coords_geojson).getLastD 0 ≤ max_range_m then
    some { total_distance_m :=
             pyRound 2 ((cumulative_distances hav coords_geojson).getLastD 0)
           total_distance_miles :=
             pyRound 3 (meters_to_miles
               ((cumulative_distances hav coords_geojson).getLastD 0))
           total_gallons :=
             pyRound 3 ((cumulative_distances hav coords_geojson).getLastD 0
               / 1609.344 / mpg)
           stops := []
           estimated_cost := 0 }
  else
    match stopsLoop hav coords_geojson stations
        (cumulative_distances hav coords_geojson)
        ((cumulative_distances hav coords_geojson).getLastD 0)
        max_range_m mpg radius_m 50 0 with
    | none => none
    | some stops =>
      some { total_distance_m :=
               pyRound 2 ((cumulative_distances hav coords_geojson).getLastD 0)
             total_distance_miles :=
               pyRound 3 (meters_to_miles
                 ((cumulative_distances hav coords_geojson).getLastD 0))
             total_gallons :=
               pyRound 3 ((cumulative_distances hav coords_geojson).getLastD 0
                 / 1609.344 / mpg)
             stops := stops
             estimated_cost := pyRound 2 ((stops.map Stop.cost).sum) }

/-- A simple exact distance function (taxicab on raw coordinates), used to
evaluate the planner on concrete inputs. -/
def taxiDist (lat1 lon1 lat2 lon2 : ℚ) : ℚ := |lat2 - lat1| + |lon2 - lon1|

/-- The spacing invariant the loop maintains, with a lower bound `lb` on the
(unrounded) distance of the previous stop: each recorded (rounded) stop
distance is at least `lb + max_range_m` up to the 2-decimal rounding slack
`1/200`. -/
def chainFrom (max_range_m : ℚ) : ℚ → List Stop → Prop
  | _, [] => True
  | lb, s :: t => lb + max_range_m - 1/200 ≤ s.distance_from_start_m ∧
      chainFrom max_range_m (s.distance_from_start_m - 1/200) t

/-! ### The geodesic distance primitive over `ℝ` (`haversine_m`) -/

/-- `math.radians`: degrees to radians. -/
noncomputable def radians (x : ℝ) : ℝ := x * Real.pi / 180

/-- `math.atan2(y, x)`: the two-argument arctangent, quadrant-correct. -/
noncomputable def atan2 (y x : ℝ) : ℝ :=
  if 0 < x then Real.arctan (y / x)
  else if x < 0 then
    (if 0 ≤ y then Real.arctan (y / x) + Real.pi else Real.arctan (y / x) - Real.pi)
  else
    (if 0 < y then Real.pi / 2 else if y < 0 then -(Real.pi / 2) else 0)

/-- The intermediate value `a` of `haversine_m`:
`sin(dphi/2)**2 + cos(phi1)*cos(phi2)*sin(dlambda/2)**2`. -/
noncomputable def haversineA (lat1 lon1 lat2 lon2 : ℝ) : ℝ :=
  Real.sin (radians (lat2 - lat1) / 2) ^ 2 +
    Real.cos (radians lat1) * Real.cos (radians lat2) *
      Real.sin (radians (lon2 - lon1) / 2) ^ 2

/-- `haversine_m` from the source: `R * c` with `R = 6371000.0` and
`c = 2 * atan2(sqrt(a), sqrt(1 - a))`. -/
noncomputable def haversine_m (lat1 lon1 lat2 lon2 : ℝ) : ℝ :=
  6371000 * (2 * atan2 (Real.sqrt (haversineA lat1 lon1 lat2 lon2))
    (Real.sqrt (1 - haversineA lat1 lon1 lat2 lon2)))

/-! ### Concrete inputs used to evaluate the claims -/

/-- A concrete station used for concrete planner runs. -/
def stationA : Station := ⟨"A", 0, 0, 1⟩

/-- A second station: same location class, cheaper but farther in the
concrete locator runs. -/
def stationB : Station := ⟨"B", 0, 20, 1/2⟩

/-- A three-vertex polyline whose taxicab cumulative distances are
`[0, 600, 1000]`. -/
def coords3 : List (ℚ × ℚ) := [(0, 0), (600, 0), (1000, 0)]

/-- A two-vertex polyline of taxicab length 300. -/
def coords2 : List (ℚ × ℚ) := [(0, 0), (300, 0)]

/-- The stop the planner emits on `coords3` with `stationA`, range 500,
10 mpg: vertex index 1, fill `min(1000 - 600, 500) = 400`,
`gallons = 400/1609.344/10`, rounded. -/
def stop0 : Stop :=
  { station := stationA
    stop_coord := (0, 600)
    distance_from_start_m := 600
    gallons := 1/40
    cost := 1/50 }

/-- The `PlanResult` for the `coords3`/`stationA` run. -/
def r0Plan : PlanResult :=
  { total_distance_m := 1000
    total_distance_miles := 621/1000
    total_gallons := 31/500
    stops := [stop0]
    estimated_cost := 1/50 }

/-! ### Basic facts about the rounding model -/

theorem roundHalfEven_bounds (x : ℚ) :
    x - 1/2 ≤ (roundHalfEven x : ℚ) ∧ (roundHalfEven x : ℚ) ≤ x + 1/2 := by
  have h1 : ((⌊x⌋ : ℤ) : ℚ) ≤ x := Int.floor_le x
  have h2 : x < (⌊x⌋ : ℚ) + 1 := Int.lt_floor_add_one x
  dsimp only [roundHalfEven]
  split_ifs with ha hb hc <;> constructor <;> push_cast <;> linarith

theorem pyRound_bounds (d : ℕ) (x : ℚ) :
    x - 1 / (2 * 10 ^ d) ≤ pyRound d x ∧ pyRound d x ≤ x + 1 / (2 * 10 ^ d) := by
  have hp : (0 : ℚ) < 10 ^ d := by positivity
  obtain ⟨h1, h2⟩ := roundHalfEven_bounds (x * 10 ^ d)
  unfold pyRound
  constructor
  · rw [le_div_iff₀ hp]
    have : (x - 1 / (2 * 10 ^ d)) * 10 ^ d = x * 10 ^ d - 1/2 := by
      field_simp; ring
    rw [this]; exact h1
  · rw [div_le_iff₀ hp]
    have : (x + 1 / (2 * 10 ^ d)) * 10 ^ d = x * 10 ^ d + 1/2 := by
      field_simp; ring
    rw [this]; exact h2

theorem pyRound2_bounds (x : ℚ) :
    x - 1/200 ≤ pyRound 2 x ∧ pyRound 2 x ≤ x + 1/200 := by
  obtain ⟨h1, h2⟩ := pyRound_bounds 2 x
  norm_num at h1 h2
  exact ⟨by linarith, by linarith⟩

/-! ### List helper facts -/

theorem getD_length_sub_one {l : List ℚ} (h : l ≠ []) :
    l.getD (l.length - 1) 0 = l.getLastD 0 := by
  induction l with
  | nil => simp at h
  | cons a t ih =>
    cases t with
    | nil => simp
    | cons b t' =>
      have : (a :: b :: t').length - 1 = (b :: t').length - 1 + 1 := by
        simp [Nat.succ_sub_one]
      rw [this]
      simpa [List.getLastD_cons] using ih (by simp)

theorem mem_insertS {α : Type} (le : α → α → Bool) (x a : α) :
    ∀ l : List α, a ∈ insertS le x l ↔ a = x ∨ a ∈ l
  | [] => by simp [insertS]
  | y :: t => by
    simp only [insertS]
    split_ifs with h
    · simp
    · rw [List.mem_cons, List.mem_cons, mem_insertS le x a t]
      tauto

theorem length_insertS {α : Type} (le : α → α → Bool) (x : α) :
    ∀ l : List α, (insertS le x l).length = l.length + 1
  | [] => rfl
  | y :: t => by
    simp only [insertS]
    split_ifs with h
    · simp
    · simp [length_insertS le x t]

theorem mem_pySort {α : Type} (le : α → α → Bool) (a : α) :
    ∀ l : List α, a ∈ pySort le l ↔ a ∈ l
  | [] => by simp [pySort]
  | x :: t => by
    rw [pySort, mem_insertS, mem_pySort le a t, List.mem_cons]

theorem length_pySort {α : Type} (le : α → α → Bool) :
    ∀ l : List α, (pySort le l).length = l.length
  | [] => rfl
  | x :: t => by
    rw [pySort, length_insertS, length_pySort le t, List.length_cons]

theorem pairwise_insertS {α : Type} (le : α → α → Bool)
    (htrans : ∀ a b c, le a b → le b c → le a c)
    (htotal : ∀ a b, le a b || le b a) (x : α) :
    ∀ l : List α, l.Pairwise (le · ·) → (insertS le x l).Pairwise (le · ·)
  | [], _ => by simp [insertS]
  | y :: t, h => by
    obtain ⟨hy, ht⟩ := List.pairwise_cons.1 h
    simp only [insertS]
    split_ifs with hxy
    · refine List.pairwise_cons.2 ⟨?_, h⟩
      intro b hb
      rcases List.mem_cons.1 hb with hb | hb
      · subst hb; exact hxy
      · exact htrans x y b hxy (hy b hb)
    · have hyx : le y x := by
        have := htotal x y
        simp only [Bool.or_eq_true] at this
        rcases this with h' | h'
        · exact absurd h' hxy
        · exact h'
      refine List.pairwise_cons.2 ⟨?_, pairwise_insertS le htrans htotal x t ht⟩
      intro b hb
      rcases (mem_insertS le x b t).1 hb with hb | hb
      · subst hb; exact hyx
      · exact hy b hb

theorem pairwise_pySort {α : Type} (le : α → α → Bool)
    (htrans : ∀ a b c, le a b → le b c → le a c)
    (htotal : ∀ a b, le a b || le b a) :
    ∀ l : List α, (pySort le l).Pairwise (le · ·)
  | [] => by simp [pySort]
  | x :: t =>
    pairwise_insertS le htrans htotal x (pySort le t)
      (pairwise_pySort le htrans htotal t)

/-- The first element of `pySort le l` (when it exists) is a member of `l`
and is `le`-below every member of `l`, provided `le` is transitive and total. -/
theorem head_pySort_min {α : Type} (le : α → α → Bool)
    (htrans : ∀ a b c, le a b → le b c → le a c)
    (htotal : ∀ a b, le a b || le b a)
    (l : List α) (x : α) (hx : (pySort le l).head? = some x) :
    x ∈ l ∧ ∀ y ∈ l, le x y = true := by
  obtain ⟨ys, hys⟩ := List.head?_eq_some_iff.1 hx
  have hmem : x ∈ l := by
    rw [← mem_pySort le x l, hys]; simp
  refine ⟨hmem, fun y hy => ?_⟩
  have hy' : y ∈ pySort le l := (mem_pySort le y l).2 hy
  rw [hys] at hy'
  rcases List.mem_cons.1 hy' with h | h
  · subst h
    have := htotal y y
    simpa using this
  · have hpw := pairwise_pySort le htrans htotal l
    rw [hys] at hpw
    exact (List.pairwise_cons.1 hpw).1 y h

/-! ### Facts about `cumulative_distances` -/

theorem cumAux_length (hav : ℚ → ℚ → ℚ → ℚ → ℚ) :
    ∀ (l : List (ℚ × ℚ)) (acc : ℚ) (p : ℚ × ℚ), (cumAux hav acc p l).length = l.length
  | [], _, _ => rfl
  | _ :: rest, acc, p => by
    simp [cumAux, cumAux_length hav rest]

theorem cumulative_distances_length (hav : ℚ → ℚ → ℚ → ℚ → ℚ)
    (coords : List (ℚ × ℚ)) (h : coords ≠ []) :
    (cumulative_distances hav coords).length = coords.length := by
  cases coords with
  | nil => simp at h
  | cons p rest => simp [cumulative_distances, cumAux_length]

theorem cumulative_distances_ne_nil (hav : ℚ → ℚ → ℚ → ℚ → ℚ)
    (coords : List (ℚ × ℚ)) : cumulative_distances hav coords ≠ [] := by
  cases coords <;> simp [cumulative_distances]

theorem cumulative_distances_head (hav : ℚ → ℚ → ℚ → ℚ → ℚ)
    (coords : List (ℚ × ℚ)) : (cumulative_distances hav coords).getD 0 0 = 0 := by
  cases coords <;> simp [cumulative_distances]

theorem cumAux_chain (hav : ℚ → ℚ → ℚ → ℚ → ℚ)
    (hd : ∀ la1 lo1 la2 lo2, 0 ≤ hav la1 lo1 la2 lo2) :
    ∀ (l : List (ℚ × ℚ)) (acc : ℚ) (p : ℚ × ℚ),
      List.Chain' (· ≤ ·) (acc :: cumAux hav acc p l)
  | [], _, _ => by simp [cumAux]
  | q :: rest, acc, p => by
    have ih := cumAux_chain hav hd rest (acc + hav p.2 p.1 q.2 q.1) q
    rw [cumAux, List.chain'_cons]
    exact ⟨by linarith [hd p.2 p.1 q.2 q.1], ih⟩

theorem cumulative_distances_chain (hav : ℚ → ℚ → ℚ → ℚ → ℚ)
    (hd : ∀ la1 lo1 la2 lo2, 0 ≤ hav la1 lo1 la2 lo2) (coords : List (ℚ × ℚ)) :
    List.Chain' (· ≤ ·) (cumulative_distances hav coords) := by
  cases coords with
  | nil => simp [cumulative_distances]
  | cons p rest => exact cumAux_chain hav hd rest 0 p

theorem cumAux_getD (hav : ℚ → ℚ → ℚ → ℚ → ℚ) :
    ∀ (l : List (ℚ × ℚ)) (acc : ℚ) (p : ℚ × ℚ) (i : ℕ), i + 1 < l.length →
      (cumAux hav acc p l).getD (i + 1) 0 =
        (cumAux hav acc p l).getD i 0 +
          hav (l.getD i (0, 0)).2 (l.getD i (0, 0)).1
            (l.getD (i + 1) (0, 0)).2 (l.getD (i + 1) (0, 0)).1
  | [], _, _, _, h => by simp at h
  | q :: rest, acc, p, 0, h => by
    cases rest with
    | nil => simp at h
    | cons r rest' => simp [cumAux]
  | q :: rest, acc, p, i + 1, h => by
    have h' : i + 1 < rest.length := by simpa using h
    have ih := cumAux_getD hav rest (acc + hav p.2 p.1 q.2 q.1) q i h'
    simpa [cumAux] using ih

theorem cumulative_distances_getD (hav : ℚ → ℚ → ℚ → ℚ → ℚ)
    (coords : List (ℚ × ℚ)) (i : ℕ) (h : i + 1 < coords.length) :
    (cumulative_distances hav coords).getD (i + 1) 0 =
      (cumulative_distances hav coords).getD i 0 +
        hav (coords.getD i (0, 0)).2 (coords.getD i (0, 0)).1
          (coords.getD (i + 1) (0, 0)).2 (coords.getD (i + 1) (0, 0)).1 := by
  cases coords with
  | nil => simp at h
  | cons p rest =>
    cases i with
    | zero =>
      cases rest with
      | nil => simp at h
      | cons q rest' => simp [cumulative_distances, cumAux]
    | succ j =>
      have h' : j + 1 < rest.length := by simpa using h
      have := cumAux_getD hav rest 0 p j h'
      simpa [cumulative_distances] using this

/-! ### Facts about the forced-stop loop -/

theorem forcedIdx_lt_length (cum : List ℚ) (target : ℚ) (hne : cum ≠ []) :
    forcedIdx cum target < cum.length := by
  have hlen : 0 < cum.length := List.length_pos.2 hne
  unfold forcedIdx
  have hle := @List.findIdx_le_length _ (fun v => decide (target ≤ v)) cum
  split_ifs with h
  · omega
  · omega

theorem cum_forcedIdx_ge (cum : List ℚ) (target total : ℚ) (hne : cum ≠ [])
    (htot : cum.getLastD 0 = total) (hlt : target < total) :
    target ≤ cum.getD (forcedIdx cum target) 0 := by
  unfold forcedIdx
  have hle := @List.findIdx_le_length _ (fun v => decide (target ≤ v)) cum
  split_ifs with h
  · rw [getD_length_sub_one hne, htot]
    exact le_of_lt hlt
  · have hlt' : cum.findIdx (fun v => decide (target ≤ v)) < cum.length :=
      lt_of_le_of_ne hle h
    rw [List.getD_eq_getElem cum 0 hlt']
    have := @List.findIdx_getElem _ _ _ hlt'
    simpa using this

theorem stopsLoop_length (hav : ℚ → ℚ → ℚ → ℚ → ℚ) (coords : List (ℚ × ℚ))
    (stations : List Station) (cum : List ℚ) (total maxR mpg radius : ℚ) :
    ∀ (fuel : ℕ) (last : ℚ) (L : List Stop),
      stopsLoop hav coords stations cum total maxR mpg radius fuel last = some L →
      L.length ≤ fuel
  | 0, last, L, h => by
    simp [stopsLoop] at h
    subst h
    simp
  | fuel + 1, last, L, h => by
    rw [stopsLoop] at h
    by_cases hc : last + maxR < total
    · rw [if_pos hc] at h
      cases hfs : find_station_for_point hav
          (coords.getD (forcedIdx cum (last + maxR)) (0, 0)).2
          (coords.getD (forcedIdx cum (last + maxR)) (0, 0)).1 stations radius with
      | none => rw [hfs] at h; simp at h
      | some station =>
        rw [hfs] at h
        cases hrec : stopsLoop hav coords stations cum total maxR mpg radius fuel
            (cum.getD (forcedIdx cum (last + maxR)) 0) with
        | none => rw [hrec] at h; simp at h
        | some rest =>
          rw [hrec] at h
          simp at h
          have ih := stopsLoop_length hav coords stations cum total maxR mpg radius
            fuel (cum.getD (forcedIdx cum (last + maxR)) 0) rest hrec
          subst h
          simpa using ih
    · rw [if_neg hc] at h
      simp at h
      subst h
      simp

theorem stopsLoop_chainFrom (hav : ℚ → ℚ → ℚ → ℚ → ℚ) (coords : List (ℚ × ℚ))
    (stations : List Station) (cum : List ℚ) (total maxR mpg radius : ℚ)
    (hne : cum ≠ []) (htot : cum.getLastD 0 = total) :
    ∀ (fuel : ℕ) (last lb : ℚ) (L : List Stop), lb ≤ last →
      stopsLoop hav coords stations cum total maxR mpg radius fuel last = some L →
      chainFrom maxR lb L
  | 0, last, lb, L, hlb, h => by
    simp [stopsLoop] at h
    subst h
    trivial
  | fuel + 1, last, lb, L, hlb, h => by
    rw [stopsLoop] at h
    by_cases hc : last + maxR < total
    · rw [if_pos hc] at h
      cases hfs : find_station_for_point hav
          (coords.getD (forcedIdx cum (last + maxR)) (0, 0)).2
          (coords.getD (forcedIdx cum (last + maxR)) (0, 0)).1 stations radius with
      | none => rw [hfs] at h; simp at h
      | some station =>
        rw [hfs] at h
        cases hrec : stopsLoop hav coords stations cum total maxR mpg radius fuel
            (cum.getD (forcedIdx cum (last + maxR)) 0) with
        | none => rw [hrec] at h; simp at h
        | some rest =>
          rw [hrec] at h
          simp only [Option.some.injEq] at h
          subst h
          have hge : last + maxR ≤ cum.getD (forcedIdx cum (last + maxR)) 0 :=
            cum_forcedIdx_ge cum (last + maxR) total hne htot hc
          obtain ⟨hb1, hb2⟩ := pyRound2_bounds (cum.getD (forcedIdx cum (last + maxR)) 0)
          refine ⟨?_, ?_⟩
          · simp only [mkStop]
            linarith
          · simp only [mkStop]
            exact stopsLoop_chainFrom hav coords stations cum total maxR mpg radius
              hne htot fuel (cum.getD (forcedIdx cum (last + maxR)) 0)
              (pyRound 2 (cum.getD (forcedIdx cum (last + maxR)) 0) - 1/200) rest
              (by linarith) hrec
    · rw [if_neg hc] at h
      simp at h
      subst h
      trivial

theorem chainFrom_chain' (maxR : ℚ) :
    ∀ (L : List Stop) (lb lb' : ℚ), lb' ≤ lb + 1/200 → chainFrom maxR lb L →
      List.Chain' (fun a b => a + maxR - 1/100 ≤ b)
        (lb' :: L.map Stop.distance_from_start_m)
  | [], lb, lb', hle, h => by simp
  | s :: t, lb, lb', hle, h => by
    obtain ⟨h1, h2⟩ := h
    rw [List.map_cons, List.chain'_cons]
    constructor
    · linarith
    · exact chainFrom_chain' maxR t (s.distance_from_start_m - 1/200)
        s.distance_from_start_m (by linarith) h2

/-- Every stop emitted by the loop is `mkStop` at some index of `cum`. -/
theorem stopsLoop_shape (hav : ℚ → ℚ → ℚ → ℚ → ℚ) (coords : List (ℚ × ℚ))
    (stations : List Station) (cum : List ℚ) (total maxR mpg radius : ℚ)
    (hne : cum ≠ []) :
    ∀ (fuel : ℕ) (last : ℚ) (L : List Stop),
      stopsLoop hav coords stations cum total maxR mpg radius fuel last = some L →
      ∀ s ∈ L, ∃ i, i < cum.length ∧ ∃ st : Station,
        s = mkStop total maxR mpg st (coords.getD i (0, 0)) (cum.getD i 0)
  | 0, last, L, h => by
    simp [stopsLoop] at h
    subst h
    simp
  | fuel + 1, last, L, h => by
    rw [stopsLoop] at h
    by_cases hc : last + maxR < total
    · rw [if_pos hc] at h
      cases hfs : find_station_for_point hav
          (coords.getD (forcedIdx cum (last + maxR)) (0, 0)).2
          (coords.getD (forcedIdx cum (last + maxR)) (0, 0)).1 stations radius with
      | none => rw [hfs] at h; simp at h
      | some station =>
        rw [hfs] at h
        cases hrec : stopsLoop hav coords stations cum total maxR mpg radius fuel
            (cum.getD (forcedIdx cum (last + maxR)) 0) with
        | none => rw [hrec] at h; simp at h
        | some rest =>
          rw [hrec] at h
          simp only [Option.some.injEq] at h
          subst h
          intro s hs
          rcases List.mem_cons.1 hs with hs | hs
          · exact ⟨forcedIdx cum (last + maxR),
              forcedIdx_lt_length cum (last + maxR) hne, station, hs⟩
          · exact stopsLoop_shape hav coords stations cum total maxR mpg radius
              hne fuel (cum.getD (forcedIdx cum (last + maxR)) 0) rest hrec s hs
    · rw [if_neg hc] at h
      simp at h
      subst h
      simp

/-- The locator on an empty station list: no candidates, and the fallback
`stations_sorted[0]` indexes an empty list (the Python `IndexError`). -/
theorem find_station_for_point_nil (hav : ℚ → ℚ → ℚ → ℚ → ℚ)
    (lat lon radius : ℚ) :
    find_station_for_point hav lat lon [] radius = none := by
  simp [find_station_for_point, pySort]

/-! ### The station locator -/

theorem keyLe_trans (a b c : ℚ × Station) (hab : keyLe a b) (hbc : keyLe b c) :
    keyLe a c := by
  simp only [keyLe, decide_eq_true_eq] at *
  rcases hab with h | ⟨h, hd⟩ <;> rcases hbc with h' | ⟨h', hd'⟩
  · exact Or.inl (lt_trans h h')
  · exact Or.inl (h' ▸ h)
  · exact Or.inl (h ▸ h')
  · exact Or.inr ⟨h.trans h', le_trans hd hd'⟩

theorem keyLe_total (a b : ℚ × Station) : keyLe a b || keyLe b a := by
  simp only [keyLe, Bool.or_eq_true, decide_eq_true_eq]
  rcases lt_trichotomy a.2.price b.2.price with h | h | h
  · exact Or.inl (Or.inl h)
  · rcases le_total a.1 b.1 with hd | hd
    · exact Or.inl (Or.inr ⟨h, hd⟩)
    · exact Or.inr (Or.inr ⟨h.symm, hd⟩)
  · exact Or.inr (Or.inl h)

/-- C3: on a non-empty station list `find_station_for_point` returns some
station of the list; if at least one station is within the radius, the
returned one is within the radius and minimises the `(price, distance)`
lexicographic key among in-radius stations (lowest price first, distance
breaking ties, so a farther but cheaper in-radius station wins); otherwise
the returned one minimises the distance over all stations, regardless of
price. -/
theorem C3_locator_spec (hav : ℚ → ℚ → ℚ → ℚ → ℚ)
    (lat lon radius : ℚ) (stations : List Station) (hne : stations ≠ []) :
    ∃ s : Station,
      find_station_for_point hav lat lon stations radius = some s ∧
      s ∈ stations ∧
      ((∃ t ∈ stations, hav lat lon t.lat t.lon ≤ radius) →
        hav lat lon s.lat s.lon ≤ radius ∧
        ∀ t ∈ stations, hav lat lon t.lat t.lon ≤ radius →
          (s.price < t.price ∨
            (s.price = t.price ∧ hav lat lon s.lat s.lon ≤ hav lat lon t.lat t.lon))) ∧
      ((∀ t ∈ stations, ¬ hav lat lon t.lat t.lon ≤ radius) →
        ∀ t ∈ stations, hav lat lon s.lat s.lon ≤ hav lat lon t.lat t.lon) := by
  by_cases hcand :
      ((stations.map (fun s => (hav lat lon s.lat s.lon, s))).filter
        (fun ds => decide (ds.1 ≤ radius))).isEmpty
  · -- no candidate within the radius: nearest-overall fallback
    have hnil :
        (stations.map (fun s => (hav lat lon s.lat s.lon, s))).filter
          (fun ds => decide (ds.1 ≤ radius)) = [] := by
      simpa [List.isEmpty_iff] using hcand
    have hnocand : ∀ t ∈ stations, ¬ hav lat lon t.lat t.lon ≤ radius := by
      intro t ht hle
      have hmem : (hav lat lon t.lat t.lon, t) ∈
          (stations.map (fun s => (hav lat lon s.lat s.lon, s))).filter
            (fun ds => decide (ds.1 ≤ radius)) := by
        rw [List.mem_filter]
        exact ⟨List.mem_map.2 ⟨t, ht, rfl⟩, by simpa using hle⟩
      rw [hnil] at hmem
      simp at hmem
    cases hh : (pySort
        (fun a b => decide (hav lat lon a.lat a.lon ≤ hav lat lon b.lat b.lon))
        stations).head? with
    | none =>
      exfalso
      rw [List.head?_eq_none_iff] at hh
      have : stations.length = 0 := by
        have := length_pySort
          (fun a b => decide (hav lat lon a.lat a.lon ≤ hav lat lon b.lat b.lon))
          stations
        rw [hh] at this
        simpa using this.symm
      exact hne (List.length_eq_zero.1 this)
    | some s =>
      have hmin := head_pySort_min
        (fun a b => decide (hav lat lon a.lat a.lon ≤ hav lat lon b.lat b.lon))
        (fun a b c hab hbc => by
          simp only [decide_eq_true_eq] at *
          exact le_trans hab hbc)
        (fun a b => by
          simp only [Bool.or_eq_true, decide_eq_true_eq]
          exact le_total _ _)
        stations s hh
      refine ⟨s, ?_, hmin.1, ?_, ?_⟩
      · simp only [find_station_for_point]
        rw [if_pos hcand]
        exact hh
      · intro ⟨t, ht, hle⟩
        exact absurd hle (hnocand t ht)
      · intro _ t ht
        have := hmin.2 t ht
        simpa using this
  · -- at least one candidate: cheapest-in-radius selection
    cases hh : (pySort keyLe
        ((stations.map (fun s => (hav lat lon s.lat s.lon, s))).filter
          (fun ds => decide (ds.1 ≤ radius)))).head? with
    | none =>
      exfalso
      rw [List.head?_eq_none_iff] at hh
      have hlen := length_pySort keyLe
        ((stations.map (fun s => (hav lat lon s.lat s.lon, s))).filter
          (fun ds => decide (ds.1 ≤ radius)))
      rw [hh] at hlen
      have : ((stations.map (fun s => (hav lat lon s.lat s.lon, s))).filter
          (fun ds => decide (ds.1 ≤ radius))) = [] :=
        List.length_eq_zero.1 (by simpa using hlen.symm)
      rw [List.isEmpty_iff] at hcand
      exact hcand this
    | some ds =>
      have hmin := head_pySort_min keyLe keyLe_trans keyLe_total _ ds hh
      have hdsmem := hmin.1
      rw [List.mem_filter] at hdsmem
      obtain ⟨hdsmap, hdsrad⟩ := hdsmem
      obtain ⟨u, hu, hud⟩ := List.mem_map.1 hdsmap
      refine ⟨ds.2, ?_, ?_, ?_, ?_⟩
      · simp only [find_station_for_point]
        rw [if_neg hcand, hh]
        rfl
      · rw [← hud]
        exact hu
      · intro _
        have hd0 : ds.1 = hav lat lon ds.2.lat ds.2.lon := by
          rw [← hud]
        constructor
        · rw [← hd0]
          simpa using hdsrad
        · intro t ht htle
          have htmem : (hav lat lon t.lat t.lon, t) ∈
              (stations.map (fun s => (hav lat lon s.lat s.lon, s))).filter
                (fun ds => decide (ds.1 ≤ radius)) := by
            rw [List.mem_filter]
            exact ⟨List.mem_map.2 ⟨t, ht, rfl⟩, by simpa using htle⟩
          have := hmin.2 _ htmem
          simp only [keyLe, decide_eq_true_eq] at this
          rcases this with h | ⟨h, hd⟩
          · exact Or.inl h
          · exact Or.inr ⟨h, by rw [← hd0]; exact hd⟩
      · intro hnone
        exfalso
        have : hav lat lon ds.2.lat ds.2.lon ≤ radius := by
          have hd0 : ds.1 = hav lat lon ds.2.lat ds.2.lon := by rw [← hud]
          rw [← hd0]
          simpa using hdsrad
        exact hnone ds.2 (by rw [← hud]; exact hu) this

/-! ### Remaining helper facts -/

theorem cumulative_distances_short (hav : ℚ → ℚ → ℚ → ℚ → ℚ)
    (coords : List (ℚ × ℚ)) (h : coords.length < 2) :
    cumulative_distances hav coords = [0] := by
  match coords, h with
  | [], _ => rfl
  | [p], _ => rfl

theorem pyRound_zero (d : ℕ) : pyRound d 0 = 0 := by
  norm_num [pyRound, roundHalfEven]

/-! ### Claim theorems for the stop planner -/

/-- C2: if the planning actually requires a forced stop (at least two
vertices and total distance beyond the tank range) and the station list is
empty, `compute_stops` fails (the locator has nothing to index) instead of
returning a `PlanResult`. -/
theorem C2_empty_stations_fails (hav : ℚ → ℚ → ℚ → ℚ → ℚ)
    (coords : List (ℚ × ℚ)) (max_range_m mpg radius_m : ℚ)
    (hlen : 2 ≤ coords.length)
    (hgt : max_range_m < (cumulative_distances hav coords).getLastD 0) :
    compute_stops hav coords [] max_range_m mpg radius_m = none := by
  rw [compute_stops]
  rw [if_neg (by omega), if_neg (not_le.2 hgt)]
  have hsl : stopsLoop hav coords [] (cumulative_distances hav coords)
      ((cumulative_distances hav coords).getLastD 0) max_range_m mpg radius_m
      (49 + 1) 0 = none := by
    rw [stopsLoop, if_pos (by rw [zero_add]; exact hgt),
      find_station_for_point_nil]
  rw [show (50 : ℕ) = 49 + 1 from rfl, hsl]

/-- C4: when the whole route fits in one tank (total distance at most the
range, boundary included), the plan has no stops, zero estimated cost, and
total gallons equal to the total distance in miles divided by the economy,
under the 3-decimal rounding. -/
theorem C4_single_tank (hav : ℚ → ℚ → ℚ → ℚ → ℚ) (coords : List (ℚ × ℚ))
    (stations : List Station) (max_range_m mpg radius_m : ℚ)
    (h : (cumulative_distances hav coords).getLastD 0 ≤ max_range_m) :
    ∃ r : PlanResult,
      compute_stops hav coords stations max_range_m mpg radius_m = some r ∧
      r.stops = [] ∧ r.estimated_cost = 0 ∧
      r.total_gallons =
        pyRound 3 ((cumulative_distances hav coords).getLastD 0 / 1609.344 / mpg) := by
  rw [compute_stops]
  by_cases hlen : coords.length < 2
  · rw [if_pos hlen]
    refine ⟨_, rfl, rfl, rfl, ?_⟩
    rw [cumulative_distances_short hav coords hlen]
    show (0 : ℚ) = pyRound 3 ((0 : ℚ) / 1609.344 / mpg)
    rw [zero_div, zero_div, pyRound_zero]
  · rw [if_neg hlen, if_pos h]
    exact ⟨_, rfl, rfl, rfl, rfl⟩

/-- C9: the loop runs at most 50 iterations, so any returned plan has at
most 50 stops. -/
theorem C9_stop_cap (hav : ℚ → ℚ → ℚ → ℚ → ℚ) (coords : List (ℚ × ℚ))
    (stations : List Station) (max_range_m mpg radius_m : ℚ) (r : PlanResult)
    (h : compute_stops hav coords stations max_range_m mpg radius_m = some r) :
    r.stops.length ≤ 50 := by
  rw [compute_stops] at h
  by_cases hlen : coords.length < 2
  · rw [if_pos hlen] at h
    simp only [Option.some.injEq] at h
    subst h
    simp
  · rw [if_neg hlen] at h
    by_cases hT : (cumulative_distances hav coords).getLastD 0 ≤ max_range_m
    · rw [if_pos hT] at h
      simp only [Option.some.injEq] at h
      subst h
      simp
    · rw [if_neg hT] at h
      cases hsl : stopsLoop hav coords stations (cumulative_distances hav coords)
          ((cumulative_distances hav coords).getLastD 0) max_range_m mpg radius_m
          50 0 with
      | none => rw [hsl] at h; simp at h
      | some stops =>
        rw [hsl] at h
        simp only [Option.some.injEq] at h
        subst h
        exact stopsLoop_length hav coords stations _ _ max_range_m mpg radius_m
          50 0 stops hsl

/-- C10: with fewer than two vertices or a total distance within one tank,
`compute_stops` never consults the station list: the result is the same as
with an empty station list, and it is a zero-stop `PlanResult`. -/
theorem C10_stations_unconsulted (hav : ℚ → ℚ → ℚ → ℚ → ℚ)
    (coords : List (ℚ × ℚ)) (stations : List Station)
    (max_range_m mpg radius_m : ℚ)
    (h : coords.length < 2 ∨
      (cumulative_distances hav coords).getLastD 0 ≤ max_range_m) :
    compute_stops hav coords stations max_range_m mpg radius_m =
      compute_stops hav coords [] max_range_m mpg radius_m ∧
    ∃ r : PlanResult,
      compute_stops hav coords stations max_range_m mpg radius_m = some r ∧
      r.stops = [] := by
  by_cases hlen : coords.length < 2
  · rw [compute_stops, compute_stops, if_pos hlen, if_pos hlen]
    exact ⟨rfl, _, rfl, rfl⟩
  · have hT : (cumulative_distances hav coords).getLastD 0 ≤ max_range_m := by
      rcases h with h | h
      · exact absurd h hlen
      · exact h
    rw [compute_stops, compute_stops, if_neg hlen, if_neg hlen, if_pos hT,
      if_pos hT]
    exact ⟨rfl, _, rfl, rfl⟩

/-- Helper: the spacing chain on the recorded stop distances of any
returned plan, anchored at the trip start. -/
theorem compute_stops_gap_chain (hav : ℚ → ℚ → ℚ → ℚ → ℚ)
    (coords : List (ℚ × ℚ)) (stations : List Station)
    (max_range_m mpg radius_m : ℚ) (r : PlanResult)
    (h : compute_stops hav coords stations max_range_m mpg radius_m = some r) :
    List.Chain' (fun a b => a + max_range_m - 1/100 ≤ b)
      (0 :: r.stops.map Stop.distance_from_start_m) := by
  rw [compute_stops] at h
  by_cases hlen : coords.length < 2
  · rw [if_pos hlen] at h
    simp only [Option.some.injEq] at h
    subst h
    simp
  · rw [if_neg hlen] at h
    by_cases hT : (cumulative_distances hav coords).getLastD 0 ≤ max_range_m
    · rw [if_pos hT] at h
      simp only [Option.some.injEq] at h
      subst h
      simp
    · rw [if_neg hT] at h
      cases hsl : stopsLoop hav coords stations (cumulative_distances hav coords)
          ((cumulative_distances hav coords).getLastD 0) max_range_m mpg radius_m
          50 0 with
      | none => rw [hsl] at h; simp at h
      | some stops =>
        rw [hsl] at h
        simp only [Option.some.injEq] at h
        subst h
        have hch := stopsLoop_chainFrom hav coords stations
          (cumulative_distances hav coords)
          ((cumulative_distances hav coords).getLastD 0) max_range_m mpg radius_m
          (cumulative_distances_ne_nil hav coords) rfl 50 0 0 stops le_rfl hsl
        exact chainFrom_chain' max_range_m stops 0 0 (by norm_num) hch

/-- Helper: `total_gallons` and `estimated_cost` of any returned plan. -/
theorem compute_stops_totals (hav : ℚ → ℚ → ℚ → ℚ → ℚ)
    (coords : List (ℚ × ℚ)) (stations : List Station)
    (max_range_m mpg radius_m : ℚ) (r : PlanResult)
    (h : compute_stops hav coords stations max_range_m mpg radius_m = some r) :
    r.total_gallons =
      pyRound 3 ((cumulative_distances hav coords).getLastD 0 / 1609.344 / mpg) ∧
    r.estimated_cost = pyRound 2 ((r.stops.map Stop.cost).sum) := by
  rw [compute_stops] at h
  by_cases hlen : coords.length < 2
  · rw [if_pos hlen] at h
    simp only [Option.some.injEq] at h
    subst h
    refine ⟨?_, ?_⟩
    · show (0 : ℚ) = pyRound 3 _
      rw [cumulative_distances_short hav coords hlen]
      show (0 : ℚ) = pyRound 3 ((0 : ℚ) / 1609.344 / mpg)
      rw [zero_div, zero_div, pyRound_zero]
    · show (0 : ℚ) = pyRound 2 _
      show (0 : ℚ) = pyRound 2 (([] : List Stop).map Stop.cost).sum
      simp [pyRound_zero]
  · rw [if_neg hlen] at h
    by_cases hT : (cumulative_distances hav coords).getLastD 0 ≤ max_range_m
    · rw [if_pos hT] at h
      simp only [Option.some.injEq] at h
      subst h
      refine ⟨rfl, ?_⟩
      show (0 : ℚ) = pyRound 2 (([] : List Stop).map Stop.cost).sum
      simp [pyRound_zero]
    · rw [if_neg hT] at h
      cases hsl : stopsLoop hav coords stations (cumulative_distances hav coords)
          ((cumulative_distances hav coords).getLastD 0) max_range_m mpg radius_m
          50 0 with
      | none => rw [hsl] at h; simp at h
      | some stops =>
        rw [hsl] at h
        simp only [Option.some.injEq] at h
        subst h
        exact ⟨rfl, rfl⟩

/-- C1 (amended): every stop is snapped to the first polyline vertex at or
beyond the range threshold, so each stop's `distance_from_start_m` minus the
previous stop's (or 0 for the first) is at least `max_range_m`, up to the
2-decimal rounding slack `1/100` — not at most `max_range_m` as originally
claimed. -/
theorem C1_stop_gap_at_least_range (hav : ℚ → ℚ → ℚ → ℚ → ℚ)
    (coords : List (ℚ × ℚ)) (stations : List Station)
    (max_range_m mpg radius_m : ℚ) (r : PlanResult)
    (h : compute_stops hav coords stations max_range_m mpg radius_m = some r) :
    List.Chain' (fun a b => a + max_range_m - 1/100 ≤ b)
      (0 :: r.stops.map Stop.distance_from_start_m) :=
  compute_stops_gap_chain hav coords stations max_range_m mpg radius_m r h

/-- C5: in every returned plan, the stop list is strictly ordered by
`distance_from_start_m` (for any tank range above the 2-decimal rounding
granularity `1/100` m), `total_gallons` is the total route distance in miles
divided by the economy, and `estimated_cost` is the sum of the per-stop
costs (so zero stops give zero cost), each under the stated rounding. -/
theorem C5_result_invariants (hav : ℚ → ℚ → ℚ → ℚ → ℚ)
    (coords : List (ℚ × ℚ)) (stations : List Station)
    (max_range_m mpg radius_m : ℚ) (r : PlanResult)
    (hmr : 1/100 < max_range_m)
    (h : compute_stops hav coords stations max_range_m mpg radius_m = some r) :
    List.Chain' (· < ·) (r.stops.map Stop.distance_from_start_m) ∧
    r.total_gallons =
      pyRound 3 ((cumulative_distances hav coords).getLastD 0 / 1609.344 / mpg) ∧
    r.estimated_cost = pyRound 2 ((r.stops.map Stop.cost).sum) := by
  obtain ⟨hg, hc⟩ := compute_stops_totals hav coords stations max_range_m mpg
    radius_m r h
  refine ⟨?_, hg, hc⟩
  have hchain := compute_stops_gap_chain hav coords stations max_range_m mpg
    radius_m r h
  have := hchain.tail
  simp only [List.tail_cons] at this
  exact this.imp (fun a b hab => by linarith)

/-- C6: every forced stop is built at some polyline index `i`: its recorded
distance is `round(cum[i], 2)`, its gallons are the fill distance
`min(total - cum[i], max_range_m)` in miles divided by the economy rounded
to 3 decimals, and its cost is those (unrounded) gallons times the selected
station's price rounded to 2 decimals. -/
theorem C6_stop_fields (hav : ℚ → ℚ → ℚ → ℚ → ℚ) (coords : List (ℚ × ℚ))
    (stations : List Station) (max_range_m mpg radius_m : ℚ) (r : PlanResult)
    (h : compute_stops hav coords stations max_range_m mpg radius_m = some r)
    (s : Stop) (hs : s ∈ r.stops) :
    ∃ i, i < coords.length ∧
      s.distance_from_start_m =
        pyRound 2 ((cumulative_distances hav coords).getD i 0) ∧
      s.gallons =
        pyRound 3 (fillDist ((cumulative_distances hav coords).getLastD 0)
          max_range_m ((cumulative_distances hav coords).getD i 0)
          / 1609.344 / mpg) ∧
      s.cost =
        pyRound 2 (fillDist ((cumulative_distances hav coords).getLastD 0)
          max_range_m ((cumulative_distances hav coords).getD i 0)
          / 1609.344 / mpg * s.station.price) := by
  rw [compute_stops] at h
  by_cases hlen : coords.length < 2
  · rw [if_pos hlen] at h
    simp only [Option.some.injEq] at h
    subst h
    simp at hs
  · rw [if_neg hlen] at h
    by_cases hT : (cumulative_distances hav coords).getLastD 0 ≤ max_range_m
    · rw [if_pos hT] at h
      simp only [Option.some.injEq] at h
      subst h
      simp at hs
    · rw [if_neg hT] at h
      cases hsl : stopsLoop hav coords stations (cumulative_distances hav coords)
          ((cumulative_distances hav coords).getLastD 0) max_range_m mpg radius_m
          50 0 with
      | none => rw [hsl] at h; simp at h
      | some stops =>
        rw [hsl] at h
        simp only [Option.some.injEq] at h
        subst h
        obtain ⟨i, hi, st, hmk⟩ := stopsLoop_shape hav coords stations
          (cumulative_distances hav coords)
          ((cumulative_distances hav coords).getLastD 0) max_range_m mpg radius_m
          (cumulative_distances_ne_nil hav coords) 50 0 stops hsl s hs
        refine ⟨i, ?_, ?_, ?_, ?_⟩
        · rwa [cumulative_distances_length hav coords
            (by intro hx; rw [hx] at hlen; simp at hlen)] at hi
        · rw [hmk]; rfl
        · rw [hmk]; rfl
        · rw [hmk]; rfl

/-- C7 (amended): for every NONEMPTY polyline, `cumulative_distances`
returns a sequence of the same length, starting at 0, satisfying
`cum[i+1] = cum[i] + hav(point i, point i+1)`, and non-decreasing whenever
the distance function is nonnegative.  (On the empty polyline the source
returns `[0.0]`, of length 1, so the original same-length claim fails
there.) -/
theorem C7_cumulative_spec (hav : ℚ → ℚ → ℚ → ℚ → ℚ)
    (coords : List (ℚ × ℚ)) (h : coords ≠ []) :
    (cumulative_distances hav coords).length = coords.length ∧
    (cumulative_distances hav coords).getD 0 0 = 0 ∧
    (∀ i, i + 1 < coords.length →
      (cumulative_distances hav coords).getD (i + 1) 0 =
        (cumulative_distances hav coords).getD i 0 +
          hav (coords.getD i (0, 0)).2 (coords.getD i (0, 0)).1
            (coords.getD (i + 1) (0, 0)).2 (coords.getD (i + 1) (0, 0)).1) ∧
    ((∀ la1 lo1 la2 lo2, 0 ≤ hav la1 lo1 la2 lo2) →
      List.Chain' (· ≤ ·) (cumulative_distances hav coords)) :=
  ⟨cumulative_distances_length hav coords h,
    cumulative_distances_head hav coords,
    fun i hi => cumulative_distances_getD hav coords i hi,
    fun hd => cumulative_distances_chain hav hd coords⟩

/-- C7 counterexample: on the empty polyline the source returns `[0.0]`
(the `cum = [0.0]` initialisation), so the output length is 1, not the
input length 0. -/
theorem C7_counterexample :
    cumulative_distances taxiDist [] = [0] ∧
    ¬ ((cumulative_distances taxiDist []).length = ([] : List (ℚ × ℚ)).length) :=
  ⟨rfl, by simp [cumulative_distances]⟩

/-- C7 witness: the amended specification evaluated on a concrete
two-vertex polyline. -/
theorem C7_witness :
    ([((0 : ℚ), (0 : ℚ)), (3, 4)] ≠ []) ∧
    ((cumulative_distances taxiDist [(0, 0), (3, 4)]).length =
        ([((0 : ℚ), (0 : ℚ)), (3, 4)] : List (ℚ × ℚ)).length ∧
      (cumulative_distances taxiDist [(0, 0), (3, 4)]).getD 0 0 = 0 ∧
      (∀ i, i + 1 < ([((0 : ℚ), (0 : ℚ)), (3, 4)] : List (ℚ × ℚ)).length →
        (cumulative_distances taxiDist [(0, 0), (3, 4)]).getD (i + 1) 0 =
          (cumulative_distances taxiDist [(0, 0), (3, 4)]).getD i 0 +
            taxiDist (([((0 : ℚ), (0 : ℚ)), (3, 4)] : List (ℚ × ℚ)).getD i (0, 0)).2
              (([((0 : ℚ), (0 : ℚ)), (3, 4)] : List (ℚ × ℚ)).getD i (0, 0)).1
              (([((0 : ℚ), (0 : ℚ)), (3, 4)] : List (ℚ × ℚ)).getD (i + 1) (0, 0)).2
              (([((0 : ℚ), (0 : ℚ)), (3, 4)] : List (ℚ × ℚ)).getD (i + 1) (0, 0)).1) ∧
      ((∀ la1 lo1 la2 lo2, 0 ≤ taxiDist la1 lo1 la2 lo2) →
        List.Chain' (· ≤ ·) (cumulative_distances taxiDist [(0, 0), (3, 4)]))) :=
  ⟨by simp, C7_cumulative_spec taxiDist [(0, 0), (3, 4)] (by simp)⟩

/-! ### Concrete planner runs and the claim witnesses -/

set_option maxHeartbeats 2000000 in
/-- The `coords3`/`stationA` run: total 1000 > range 500, one forced stop at
vertex 1 (cumulative 600). -/
theorem compute_stops_run1 :
    compute_stops taxiDist coords3 [stationA] 500 10 50000 = some r0Plan := by
  norm_num [compute_stops, stopsLoop, find_station_for_point, pySort, insertS,
    keyLe, cumulative_distances, cumAux, coords3, taxiDist, stationA, abs,
    forcedIdx, List.findIdx_cons, mkStop, fillDist, meters_to_miles, pyRound,
    roundHalfEven, r0Plan, stop0]

/-- C1 counterexample: on `coords3` with range 500 the only stop is recorded
at distance 600 from the start, so its distance minus the trip start exceeds
`max_range_m` even with a `1/100` rounding tolerance — the claimed
upper bound is false. -/
theorem C1_counterexample :
    compute_stops taxiDist coords3 [stationA] 500 10 50000 = some r0Plan ∧
    r0Plan.stops.map Stop.distance_from_start_m = [600] ∧
    ¬ ((600 : ℚ) - 0 ≤ 500 + 1/100) :=
  ⟨compute_stops_run1, by simp [r0Plan, stop0], by norm_num⟩

/-- C1 witness: the amended lower-bound chain evaluated on the
`coords3`/`stationA` run. -/
theorem C1_witness :
    compute_stops taxiDist coords3 [stationA] 500 10 50000 = some r0Plan ∧
    List.Chain' (fun a b => a + 500 - 1/100 ≤ b)
      (0 :: r0Plan.stops.map Stop.distance_from_start_m) :=
  ⟨compute_stops_run1,
    C1_stop_gap_at_least_range taxiDist coords3 [stationA] 500 10 50000 r0Plan
      compute_stops_run1⟩

/-- C2 witness: the empty-station failure on a trip that needs a stop. -/
theorem C2_witness :
    2 ≤ coords3.length ∧
    (500 : ℚ) < (cumulative_distances taxiDist coords3).getLastD 0 ∧
    compute_stops taxiDist coords3 [] 500 10 50000 = none :=
  ⟨by simp [coords3],
    by norm_num [cumulative_distances, cumAux, coords3, taxiDist, abs],
    C2_empty_stations_fails taxiDist coords3 500 10 50000 (by simp [coords3])
      (by norm_num [cumulative_distances, cumAux, coords3, taxiDist, abs])⟩

/-- C3 witness: the locator specification evaluated on two concrete
stations. -/
theorem C3_witness :
    ([stationA, stationB] ≠ []) ∧
    (∃ s : Station,
      find_station_for_point taxiDist 0 0 [stationA, stationB] 50000 = some s ∧
      s ∈ [stationA, stationB] ∧
      ((∃ t ∈ [stationA, stationB], taxiDist 0 0 t.lat t.lon ≤ 50000) →
        taxiDist 0 0 s.lat s.lon ≤ 50000 ∧
        ∀ t ∈ [stationA, stationB], taxiDist 0 0 t.lat t.lon ≤ 50000 →
          (s.price < t.price ∨
            (s.price = t.price ∧ taxiDist 0 0 s.lat s.lon ≤ taxiDist 0 0 t.lat t.lon))) ∧
      ((∀ t ∈ [stationA, stationB], ¬ taxiDist 0 0 t.lat t.lon ≤ 50000) →
        ∀ t ∈ [stationA, stationB],
          taxiDist 0 0 s.lat s.lon ≤ taxiDist 0 0 t.lat t.lon)) :=
  ⟨by simp, C3_locator_spec taxiDist 0 0 50000 [stationA, stationB] (by simp)⟩

/-- C4 witness: the single-tank case on a 300-unit route with range 500. -/
theorem C4_witness :
    (cumulative_distances taxiDist coords2).getLastD 0 ≤ 500 ∧
    (∃ r : PlanResult,
      compute_stops taxiDist coords2 [stationA] 500 10 50000 = some r ∧
      r.stops = [] ∧ r.estimated_cost = 0 ∧
      r.total_gallons =
        pyRound 3 ((cumulative_distances taxiDist coords2).getLastD 0
          / 1609.344 / 10)) :=
  ⟨by norm_num [cumulative_distances, cumAux, coords2, taxiDist, abs],
    C4_single_tank taxiDist coords2 [stationA] 500 10 50000
      (by norm_num [cumulative_distances, cumAux, coords2, taxiDist, abs])⟩

/-- C5 witness: the result invariants on the `coords3`/`stationA` run. -/
theorem C5_witness :
    (1/100 : ℚ) < 500 ∧
    compute_stops taxiDist coords3 [stationA] 500 10 50000 = some r0Plan ∧
    (List.Chain' (· < ·) (r0Plan.stops.map Stop.distance_from_start_m) ∧
      r0Plan.total_gallons =
        pyRound 3 ((cumulative_distances taxiDist coords3).getLastD 0
          / 1609.344 / 10) ∧
      r0Plan.estimated_cost = pyRound 2 ((r0Plan.stops.map Stop.cost).sum)) :=
  ⟨by norm_num, compute_stops_run1,
    C5_result_invariants taxiDist coords3 [stationA] 500 10 50000 r0Plan
      (by norm_num) compute_stops_run1⟩

/-- C6 witness: the per-stop fields on the `coords3`/`stationA` run's stop. -/
theorem C6_witness :
    compute_stops taxiDist coords3 [stationA] 500 10 50000 = some r0Plan ∧
    stop0 ∈ r0Plan.stops ∧
    (∃ i, i < coords3.length ∧
      stop0.distance_from_start_m =
        pyRound 2 ((cumulative_distances taxiDist coords3).getD i 0) ∧
      stop0.gallons =
        pyRound 3 (fillDist ((cumulative_distances taxiDist coords3).getLastD 0)
          500 ((cumulative_distances taxiDist coords3).getD i 0)
          / 1609.344 / 10) ∧
      stop0.cost =
        pyRound 2 (fillDist ((cumulative_distances taxiDist coords3).getLastD 0)
          500 ((cumulative_distances taxiDist coords3).getD i 0)
          / 1609.344 / 10 * stop0.station.price)) :=
  ⟨compute_stops_run1, by simp [r0Plan],
    C6_stop_fields taxiDist coords3 [stationA] 500 10 50000 r0Plan
      compute_stops_run1 stop0 (by simp [r0Plan])⟩

/-- C9 witness: the stop cap on the `coords3`/`stationA` run. -/
theorem C9_witness :
    compute_stops taxiDist coords3 [stationA] 500 10 50000 = some r0Plan ∧
    r0Plan.stops.length ≤ 50 :=
  ⟨compute_stops_run1,
    C9_stop_cap taxiDist coords3 [stationA] 500 10 50000 r0Plan
      compute_stops_run1⟩

/-- C10 witness: station independence of the single-tank case on `coords2`. -/
theorem C10_witness :
    (coords2.length < 2 ∨
      (cumulative_distances taxiDist coords2).getLastD 0 ≤ 500) ∧
    (compute_stops taxiDist coords2 [stationA] 500 10 50000 =
        compute_stops taxiDist coords2 [] 500 10 50000 ∧
      ∃ r : PlanResult,
        compute_stops taxiDist coords2 [stationA] 500 10 50000 = some r ∧
        r.stops = []) :=
  ⟨Or.inr (by norm_num [cumulative_distances, cumAux, coords2, taxiDist, abs]),
    C10_stations_unconsulted taxiDist coords2 [stationA] 500 10 50000
      (Or.inr (by norm_num [cumulative_distances, cumAux, coords2, taxiDist, abs]))⟩

/-! ### Properties of the geodesic primitive -/

theorem sin_sq_radians_sub (x y : ℝ) :
    Real.sin (radians (x - y) / 2) ^ 2 = Real.sin (radians (y - x) / 2) ^ 2 := by
  have h : radians (x - y) / 2 = -(radians (y - x) / 2) := by
    unfold radians; ring
  rw [h, Real.sin_neg, neg_sq]

theorem haversineA_comm (lat1 lon1 lat2 lon2 : ℝ) :
    haversineA lat1 lon1 lat2 lon2 = haversineA lat2 lon2 lat1 lon1 := by
  unfold haversineA
  rw [sin_sq_radians_sub lat2 lat1, sin_sq_radians_sub lon2 lon1,
    mul_comm (Real.cos (radians lat1)) (Real.cos (radians lat2))]

theorem haversine_m_comm (lat1 lon1 lat2 lon2 : ℝ) :
    haversine_m lat1 lon1 lat2 lon2 = haversine_m lat2 lon2 lat1 lon1 := by
  unfold haversine_m
  rw [haversineA_comm]

theorem cos_radians_nonneg (lat : ℝ) (h : |lat| ≤ 90) :
    0 ≤ Real.cos (radians lat) := by
  obtain ⟨hl, hr⟩ := abs_le.1 h
  have hpi := Real.pi_pos
  apply Real.cos_nonneg_of_mem_Icc
  constructor
  · show -(Real.pi / 2) ≤ lat * Real.pi / 180
    nlinarith
  · show lat * Real.pi / 180 ≤ Real.pi / 2
    nlinarith

theorem cos_radians_pos (lat : ℝ) (h : |lat| < 90) :
    0 < Real.cos (radians lat) := by
  obtain ⟨hl, hr⟩ := abs_lt.1 h
  have hpi := Real.pi_pos
  apply Real.cos_pos_of_mem_Ioo
  constructor
  · show -(Real.pi / 2) < lat * Real.pi / 180
    nlinarith
  · show lat * Real.pi / 180 < Real.pi / 2
    nlinarith

theorem haversineA_nonneg (lat1 lon1 lat2 lon2 : ℝ)
    (h1 : |lat1| ≤ 90) (h2 : |lat2| ≤ 90) :
    0 ≤ haversineA lat1 lon1 lat2 lon2 := by
  unfold haversineA
  have c1 := cos_radians_nonneg lat1 h1
  have c2 := cos_radians_nonneg lat2 h2
  have s1 := sq_nonneg (Real.sin (radians (lat2 - lat1) / 2))
  have s2 := sq_nonneg (Real.sin (radians (lon2 - lon1) / 2))
  have m := mul_nonneg (mul_nonneg c1 c2) s2
  linarith

theorem atan2_sqrt_eq_zero_iff (a : ℝ) (ha : 0 ≤ a) :
    atan2 (Real.sqrt a) (Real.sqrt (1 - a)) = 0 ↔ a = 0 := by
  constructor
  · intro h
    by_contra hne
    have ha' : 0 < a := lt_of_le_of_ne ha (Ne.symm hne)
    have hy : 0 < Real.sqrt a := Real.sqrt_pos.2 ha'
    rcases lt_or_eq_of_le (Real.sqrt_nonneg (1 - a)) with hx | hx
    · unfold atan2 at h
      rw [if_pos hx, Real.arctan_eq_zero_iff] at h
      rcases div_eq_zero_iff.1 h with h' | h'
      · exact absurd h' (ne_of_gt hy)
      · exact absurd h' (ne_of_gt hx)
    · unfold atan2 at h
      rw [← hx] at h
      simp only [lt_irrefl, if_false, if_pos hy] at h
      have := Real.pi_pos
      linarith
  · intro h
    subst h
    unfold atan2
    rw [if_pos (by rw [sub_zero, Real.sqrt_one]; norm_num)]
    rw [Real.sqrt_zero, zero_div, Real.arctan_zero]

theorem haversine_m_eq_zero_iff (lat1 lon1 lat2 lon2 : ℝ)
    (h1 : |lat1| ≤ 90) (h2 : |lat2| ≤ 90) :
    haversine_m lat1 lon1 lat2 lon2 = 0 ↔ haversineA lat1 lon1 lat2 lon2 = 0 := by
  unfold haversine_m
  rw [mul_eq_zero, mul_eq_zero]
  constructor
  · intro h
    rcases h with h | h
    · norm_num at h
    · rcases h with h | h
      · norm_num at h
      · exact (atan2_sqrt_eq_zero_iff _ (haversineA_nonneg lat1 lon1 lat2 lon2 h1 h2)).1 h
  · intro h
    right; right
    exact (atan2_sqrt_eq_zero_iff _ (haversineA_nonneg lat1 lon1 lat2 lon2 h1 h2)).2 h

theorem sin_radians_half_eq_zero_iff (t : ℝ) (h : |t| < 360) :
    Real.sin (radians t / 2) = 0 ↔ t = 0 := by
  constructor
  · intro hs
    rw [Real.sin_eq_zero_iff] at hs
    obtain ⟨n, hn⟩ := hs
    have hpi := Real.pi_pos
    have ht : t = 360 * n := by
      have h1 : (n : ℝ) * Real.pi * 360 = t * Real.pi := by
        unfold radians at hn
        field_simp at hn
        linarith [hn]
      have h2 : ((n : ℝ) * 360 - t) * Real.pi = 0 := by ring_nf; linarith [h1]
      rcases mul_eq_zero.1 h2 with h3 | h3
      · linarith [h3]
      · exact absurd h3 Real.pi_ne_zero
    have hn1 : |(n : ℝ)| < 1 := by
      rw [ht] at h
      rw [abs_mul, abs_of_pos (by norm_num : (0:ℝ) < 360)] at h
      linarith
    have : |n| < 1 := by exact_mod_cast hn1
    have : n = 0 := Int.abs_lt_one_iff.1 this
    rw [ht, this]
    norm_num
  · intro ht
    subst ht
    unfold radians
    norm_num

theorem haversineA_eq_zero_iff (lat1 lon1 lat2 lon2 : ℝ)
    (h1 : |lat1| < 90) (h2 : |lat2| < 90) (h3 : |lon1| < 180) (h4 : |lon2| < 180) :
    haversineA lat1 lon1 lat2 lon2 = 0 ↔ (lat2 - lat1 = 0 ∧ lon2 - lon1 = 0) := by
  unfold haversineA
  have c1 := cos_radians_pos lat1 h1
  have c2 := cos_radians_pos lat2 h2
  have s1 := sq_nonneg (Real.sin (radians (lat2 - lat1) / 2))
  have s2 := sq_nonneg (Real.sin (radians (lon2 - lon1) / 2))
  have hsplit : Real.sin (radians (lat2 - lat1) / 2) ^ 2 +
      Real.cos (radians lat1) * Real.cos (radians lat2) *
        Real.sin (radians (lon2 - lon1) / 2) ^ 2 = 0 ↔
      Real.sin (radians (lat2 - lat1) / 2) ^ 2 = 0 ∧
      Real.cos (radians lat1) * Real.cos (radians lat2) *
        Real.sin (radians (lon2 - lon1) / 2) ^ 2 = 0 :=
    add_eq_zero_iff_of_nonneg s1 (by positivity)
  rw [hsplit]
  have hlat : |lat2 - lat1| < 360 := by
    obtain ⟨a1, b1⟩ := abs_lt.1 h1
    obtain ⟨a2, b2⟩ := abs_lt.1 h2
    exact abs_lt.2 ⟨by linarith, by linarith⟩
  have hlon : |lon2 - lon1| < 360 := by
    obtain ⟨a3, b3⟩ := abs_lt.1 h3
    obtain ⟨a4, b4⟩ := abs_lt.1 h4
    exact abs_lt.2 ⟨by linarith, by linarith⟩
  constructor
  · intro ⟨ha, hb⟩
    have e1 : Real.sin (radians (lat2 - lat1) / 2) = 0 :=
      (pow_eq_zero_iff two_ne_zero).1 ha
    have e2 : Real.sin (radians (lon2 - lon1) / 2) ^ 2 = 0 := by
      rcases mul_eq_zero.1 hb with h' | h'
      · exact absurd h' (by positivity)
      · exact h'
    have e2' : Real.sin (radians (lon2 - lon1) / 2) = 0 :=
      (pow_eq_zero_iff two_ne_zero).1 e2
    exact ⟨(sin_radians_half_eq_zero_iff _ hlat).1 e1,
      (sin_radians_half_eq_zero_iff _ hlon).1 e2'⟩
  · intro ⟨ha, hb⟩
    rw [ha, hb]
    unfold radians
    norm_num

/-- C8 (amended): `haversine_m` is symmetric, and — for coordinates
strictly inside the valid ranges (|lat| < 90, |lon| < 180) — it is zero
exactly when the two `(longitude, latitude)` pairs are equal.  (At the
poles, e.g. `lat1 = lat2 = 90`, the formula gives 0 for distinct longitude
values, so the original unrestricted zero-iff-equal claim fails.) -/
theorem C8_haversine_symm_zero_iff (lat1 lon1 lat2 lon2 : ℝ)
    (h1 : |lat1| < 90) (h2 : |lat2| < 90) (h3 : |lon1| < 180) (h4 : |lon2| < 180) :
    haversine_m lat1 lon1 lat2 lon2 = haversine_m lat2 lon2 lat1 lon1 ∧
    (haversine_m lat1 lon1 lat2 lon2 = 0 ↔
      ((lon1, lat1) : ℝ × ℝ) = (lon2, lat2)) := by
  refine ⟨haversine_m_comm lat1 lon1 lat2 lon2, ?_⟩
  rw [haversine_m_eq_zero_iff lat1 lon1 lat2 lon2 (le_of_lt h1) (le_of_lt h2),
    haversineA_eq_zero_iff lat1 lon1 lat2 lon2 h1 h2 h3 h4]
  rw [Prod.mk.injEq]
  constructor
  · intro ⟨ha, hb⟩
    exact ⟨(sub_eq_zero.1 hb).symm, (sub_eq_zero.1 ha).symm⟩
  · intro ⟨ha, hb⟩
    exact ⟨by rw [hb]; exact sub_self _, by rw [ha]; exact sub_self _⟩

/-- C8 counterexample: at the north pole the haversine value is exactly
zero for two distinct `(longitude, latitude)` pairs: `cos(radians 90) = 0`
kills the longitude term and the latitude difference is zero. -/
theorem C8_counterexample :
    haversine_m 90 0 90 10 = 0 ∧ ((0 : ℝ), (90 : ℝ)) ≠ ((10 : ℝ), (90 : ℝ)) := by
  constructor
  · have hA : haversineA 90 0 90 10 = 0 := by
      unfold haversineA radians
      rw [show ((90 : ℝ) - 90) * Real.pi / 180 / 2 = 0 by ring,
        show (90 : ℝ) * Real.pi / 180 = Real.pi / 2 by ring,
        Real.sin_zero, Real.cos_pi_div_two]
      ring
    unfold haversine_m
    rw [hA, Real.sqrt_zero, sub_zero, Real.sqrt_one]
    unfold atan2
    rw [if_pos (by norm_num : (0:ℝ) < 1), zero_div, Real.arctan_zero]
    ring
  · intro h
    rw [Prod.mk.injEq] at h
    norm_num at h

/-- C8 witness: the amended statement evaluated at the origin. -/
theorem C8_witness :
    (|(0 : ℝ)| < 90) ∧ (|(0 : ℝ)| < 180) ∧
    (haversine_m 0 0 0 0 = haversine_m 0 0 0 0 ∧
      (haversine_m 0 0 0 0 = 0 ↔ ((0 : ℝ), (0 : ℝ)) = ((0 : ℝ), (0 : ℝ)))) :=
  ⟨by norm_num, by norm_num,
    C8_haversine_symm_zero_iff 0 0 0 0 (by norm_num) (by norm_num)
      (by norm_num) (by norm_num)⟩

end FuelRoute
